import Mathlib

/-!
Shallow embedding of the UHF MEV backend (`src/index.ts`).

The source is a single TypeScript module holding global mutable state
(engine flags, a statistics record, a strategy catalog, an opportunity
buffer) and a set of functions mutating it:

* `generateStrategies`        (src/index.ts:73-95)
* `scanOpportunities`         (src/index.ts:98-122)
* `executeStrategy`           (src/index.ts:125-170)
* `tradingLoop`               (src/index.ts:173-191)
* HTTP command handlers for `/api/start`, `/api/stop`, `/api/start-uhf`,
  `/api/withdraw-all`, and the `/api/flashloans` query.

JavaScript numbers are modelled as rationals (`ℚ`), `Math.random()` draws
and wall-clock reads as explicit inputs, and promise-throwing paths as
explicit outcome constructors.  Mutation is modelled by explicit state
passing; the async trading loop and the HTTP commands become events of a
transition system on a `Sys` state.
-/

namespace MevBackend

/-- The global `stats` record (src/index.ts:38-47). -/
structure Stats where
  trades : Nat
  successfulTrades : Nat
  failedTrades : Nat
  totalProfitETH : ℚ
  totalGasCostETH : ℚ
  avgLatencyMs : ℚ
  lastTradeTime : Nat
deriving Repr, DecidableEq

/-- Initial statistics at process start (all counters zero). -/
def initStats : Stats :=
  { trades := 0, successfulTrades := 0, failedTrades := 0,
    totalProfitETH := 0, totalGasCostETH := 0,
    avgLatencyMs := 0, lastTradeTime := 0 }

/-- A strategy record as pushed by `generateStrategies` (src/index.ts:81-92). -/
structure Strategy where
  id : String
  name : String
  type : String
  riskLevel : String
  enabled : Bool
  priority : Int
  successRate : ℚ
  totalTrades : Nat
  totalProfitUSD : ℚ
  apy : ℚ
deriving Repr, DecidableEq, Inhabited

/-- The fixed category enumeration `strategyTypes` (src/index.ts:74-77). -/
def strategyTypes : List String :=
  ["sandwich", "frontrun", "backrun", "arbitrage", "liquidation",
   "jit_liquidity", "flash_swap", "triangular", "cross_dex"]

/-- One iteration of the `generateStrategies` loop body at index `i`
(src/index.ts:80-92).  The three `Math.random()` draws (priority,
success rate, apy) are passed in as rationals. -/
def mkStrategy (i : Nat) (rPri rSucc rApy : ℚ) : Strategy :=
  let ty := strategyTypes.getD (i % strategyTypes.length) ""
  { id := "STRAT-" ++ toString (i + 1),
    name := ty.toUpper ++ " #" ++ toString (i + 1),
    type := ty,
    riskLevel := if i % 3 = 0 then "high" else if i % 3 = 1 then "medium" else "low",
    enabled := true,
    priority := Int.floor (rPri * 100),
    successRate := 3/4 + rSucc * (1/5),
    totalTrades := 0,
    totalProfitUSD := 0,
    apy := 40000 + rApy * 20000 }

/-- Model of `generateStrategies` (src/index.ts:73-95): builds 450 records by pushing
`mkStrategy i …` for `i = 0 … 449` onto the initially empty global catalog.
`rPri rSucc rApy` supply the per-index `Math.random()` draws. -/
def generateStrategies (rPri rSucc rApy : Nat → ℚ) : List Strategy :=
  (List.range 450).map (fun i => mkStrategy i (rPri i) (rSucc i) (rApy i))

/-- An opportunity record as synthesized by `scanOpportunities`
(src/index.ts:106-113).  `id` is the `Date.now()` value used in the
`OPP-…` identifier, so ids of successive opportunities are time-ordered. -/
structure Opp where
  id : Nat
  type : String
  profitETH : ℚ
  gasPrice : ℚ
  blockNumber : Nat
  timestamp : Nat
deriving Repr, DecidableEq

/-- The opportunity literal synthesized at src/index.ts:106-113, from the
fetched block number and gas price, the `Math.random()` draw `rand`, and
the `Date.now()` reading `now`. -/
def scannedOpp (blockNumber : Nat) (gasPrice : ℚ) (rand : ℚ) (now : Nat) : Opp :=
  { id := now, type := "arbitrage",
    profitETH := 1/1000 + rand * (1/100),
    gasPrice := gasPrice, blockNumber := blockNumber, timestamp := now }

/-- Model of `scanOpportunities` (src/index.ts:98-122).
`providerPresent` models the `!provider` guard; `callResult` models the
combined outcome of `provider.getBlockNumber()` and `provider.getFeeData()`
(`none` = either call rejected, caught at src/index.ts:119-121);
`rand` is the `Math.random()` draw and `now` the `Date.now()` reading.
Returns the opportunity produced (if any) and the updated buffer. -/
def scanOpportunities (providerPresent : Bool) (callResult : Option (Nat × ℚ))
    (rand : ℚ) (now : Nat) (buf : List Opp) : Option Opp × List Opp :=
  if !providerPresent then (none, buf)
  else
    match callResult with
    | none => (none, buf)
    | some (blockNumber, gasPrice) =>
        let opp := scannedOpp blockNumber gasPrice rand now
        let buf1 := buf ++ [opp]
        let buf2 := if buf1.length > 50 then buf1.tail else buf1
        (some opp, buf2)

/-- The errors `executeStrategy` can throw after entering its `try` block. -/
inductive ExecError
  | providerError
  | insufficientBalance
deriving Repr, DecidableEq

/-- The result of a call to `executeStrategy`: rejected before the
`try` block (`notReady`, the `Wallet not initialized` throw), thrown
inside the `try` block (`threw`), or the success record returned at
src/index.ts:159-165. -/
inductive ExecOutcome
  | notReady
  | threw (e : ExecError)
  | ok (profitETH gasCostETH netProfitETH latencyMs : ℚ)
deriving Repr, DecidableEq

/-- Model of `executeStrategy` (src/index.ts:125-170).
`walletReady` models `wallet && provider`; `balance` the outcome of
`provider.getBalance` in ETH (`none` = the call rejected);
`randProfit`/`randGas` the two `Math.random()` draws; `latency` the
observed `Date.now() - startTime`; `now` the `Date.now()` stored in
`lastTradeTime`.  Returns the updated statistics, the updated strategy
record, and the outcome. -/
def executeStrategy (st : Stats) (strat : Strategy) (walletReady : Bool)
    (balance : Option ℚ) (randProfit randGas : ℚ) (latency : ℚ) (now : Nat) :
    Stats × Strategy × ExecOutcome :=
  if !walletReady then (st, strat, .notReady)
  else
    let st1 := { st with trades := st.trades + 1 }
    match balance with
    | none =>
        ({ st1 with failedTrades := st1.failedTrades + 1 }, strat, .threw .providerError)
    | some b =>
        if b < 1/1000 then
          ({ st1 with failedTrades := st1.failedTrades + 1 }, strat,
           .threw .insufficientBalance)
        else
          let profit := randProfit * (5/1000) + 1/1000
          let gasCost := randGas * (5/10000) + 2/10000
          let st2 :=
            { st1 with
              successfulTrades := st1.successfulTrades + 1,
              totalProfitETH := st1.totalProfitETH + profit,
              totalGasCostETH := st1.totalGasCostETH + gasCost,
              lastTradeTime := now,
              avgLatencyMs :=
                (st1.avgLatencyMs * ((st1.trades : ℚ) - 1) + latency) / (st1.trades : ℚ) }
          let strat2 :=
            { strat with totalTrades := strat.totalTrades + 1,
                         totalProfitUSD := strat.totalProfitUSD + profit * 3450 }
          (st2, strat2, .ok profit gasCost (profit - gasCost) latency)

/-- The outcome of the `/api/withdraw-all` handler (src/index.ts:408-446). -/
inductive WithdrawOutcome
  | notReady
  | insufficient
  | submitted (dest : String) (amount : ℚ)
deriving Repr, DecidableEq

/-- Model of the `/api/withdraw-all` handler (src/index.ts:408-446).  Here `walletReady`
models `wallet && provider`; `balanceETH` the fetched balance in ETH;
`profitWallet` the configured `PROFIT_WALLET` destination.  On success the
handler sends `balanceETH - 0.01` to `profitWallet` and responds with the
confirmed transaction and that amount; `submitted` records both. -/
def withdrawAll (walletReady : Bool) (balanceETH : ℚ) (profitWallet : String) :
    WithdrawOutcome :=
  if !walletReady then .notReady
  else
    let withdrawAmount := balanceETH - 1/100
    if withdrawAmount ≤ 0 then .insufficient
    else .submitted profitWallet withdrawAmount

/-- The field `best: opportunities[0] || null` of the `/api/flashloans` handler
(src/index.ts:298): the first element of the buffer, or none when empty. -/
def flashloansBest (buf : List Opp) : Option Opp := buf.head?

/-- The field `avgProfitETH` of the `/api/flashloans` handler (src/index.ts:301-303):
the profit sum divided by the buffer length when nonempty, else 0. -/
def flashloansAvgProfitETH (buf : List Opp) : ℚ :=
  if buf.length > 0 then (buf.map Opp.profitETH).sum / (buf.length : ℚ) else 0

/-- The inputs one wake-up of a `tradingLoop` iteration consumes
(src/index.ts:173-191): the collaborator outcomes and random
draw of the scanner, the random strategy pick, and the collaborator
outcomes and random draws. -/
structure LoopInput where
  providerPresent : Bool
  callResult : Option (Nat × ℚ)
  scanRand : ℚ
  now : Nat
  stratPick : Nat
  walletReady : Bool
  balance : Option ℚ
  randProfit : ℚ
  randGas : ℚ
  latency : ℚ
deriving Repr, DecidableEq

/-- The whole mutable module state: the engine flags (src/index.ts:30-31),
the number of `tradingLoop` coroutines that are still running, the `stats`
record, the opportunity buffer, and the strategy catalog. -/
structure Sys where
  engineRunning : Bool
  uhfRunning : Bool
  activeLoops : Nat
  stats : Stats
  opps : List Opp
  strategies : List Strategy
deriving Repr, DecidableEq

/-- Module state at process start: both flags false, no loop running,
zero statistics, empty buffers (src/index.ts:30-47). -/
def initSys : Sys :=
  { engineRunning := false, uhfRunning := false, activeLoops := 0,
    stats := initStats, opps := [], strategies := [] }

/-- Model of the `/api/start` handler (src/index.ts:344-364): rejected with the
`Engine already running` error when `engineRunning` is set (the returned
`Bool` is the acceptance flag); otherwise sets `engineRunning` and
launches one more `tradingLoop` instance. -/
def applyStart (s : Sys) : Sys × Bool :=
  if s.engineRunning then (s, false)
  else ({ s with engineRunning := true, activeLoops := s.activeLoops + 1 }, true)

/-- Model of the `/api/start-uhf` handler (src/index.ts:384-405): rejected with the
`UHF engine already running` error when `uhfRunning` is set; otherwise
sets both flags and launches one more `tradingLoop` instance.  Note the
guard checks `uhfRunning` only. -/
def applyStartUhf (s : Sys) : Sys × Bool :=
  if s.uhfRunning then (s, false)
  else ({ s with uhfRunning := true, engineRunning := true,
                 activeLoops := s.activeLoops + 1 }, true)

/-- Model of the `/api/stop` handler (src/index.ts:367-381): unconditionally clears
both flags and always succeeds. -/
def applyStop (s : Sys) : Sys × Bool :=
  ({ s with engineRunning := false, uhfRunning := false }, true)

/-- One loop-body iteration of `tradingLoop` (src/index.ts:175-189),
taken only while `engineRunning || uhfRunning` holds: scan; if an
opportunity was produced and the catalog is nonempty, pick the strategy
at the random index and execute it.  A throw out of `executeStrategy`
is caught by the own `catch` of the loop (log + backoff), so its state
effects are exactly those `executeStrategy` already applied. -/
def loopIteration (s : Sys) (inp : LoopInput) : Sys :=
  let scanned := scanOpportunities inp.providerPresent inp.callResult
    inp.scanRand inp.now s.opps
  match scanned.1 with
  | none => { s with opps := scanned.2 }
  | some _ =>
      if s.strategies.length = 0 then { s with opps := scanned.2 }
      else
        let i := inp.stratPick % s.strategies.length
        let strat := s.strategies.getD i default
        let r := executeStrategy s.stats strat inp.walletReady inp.balance
          inp.randProfit inp.randGas inp.latency inp.now
        { s with opps := scanned.2, stats := r.1,
                 strategies := s.strategies.set i r.2.1 }

/-- One wake-up of a `tradingLoop` coroutine: the `while` condition
(src/index.ts:174) is re-checked; if both flags are clear the coroutine
exits (one fewer active loop, no other effect), else it runs one body
iteration. -/
def loopWake (s : Sys) (inp : LoopInput) : Sys :=
  if s.engineRunning || s.uhfRunning then loopIteration s inp
  else { s with activeLoops := s.activeLoops - 1 }

/-- An event of the transition system of the module: one of the three engine
commands, or one wake-up of a running `tradingLoop` coroutine. -/
inductive Event
  | start
  | stop
  | startUhf
  | wake (inp : LoopInput)
deriving Repr, DecidableEq

/-- Apply one event to the module state. -/
def stepEvent (s : Sys) (e : Event) : Sys :=
  match e with
  | .start => (applyStart s).1
  | .stop => (applyStop s).1
  | .startUhf => (applyStartUhf s).1
  | .wake inp => loopWake s inp

/-- Apply a sequence of events in order. -/
def runEvents (s : Sys) (es : List Event) : Sys := es.foldl stepEvent s

/-- The per-call inputs of one `executeStrategy` call (collaborator
outcomes, random draws, clock readings). -/
structure ExecInput where
  walletReady : Bool
  balance : Option ℚ
  randProfit : ℚ
  randGas : ℚ
  latency : ℚ
  now : Nat
deriving Repr, DecidableEq

/-- Thread a sequence of `executeStrategy` calls through the statistics
record and a single strategy record. -/
def runCalls (p : Stats × Strategy) (cs : List ExecInput) : Stats × Strategy :=
  cs.foldl
    (fun p c =>
      let r := executeStrategy p.1 p.2 c.walletReady c.balance
        c.randProfit c.randGas c.latency c.now
      (r.1, r.2.1)) p

/-- A call input that takes the success path of `executeStrategy`: the wallet
and provider are ready and the fetched balance is at least the 0.001 ETH
gas reserve. -/
def succeedsInput (c : ExecInput) : Prop :=
  c.walletReady = true ∧ ∃ b, c.balance = some b ∧ 1/1000 ≤ b

/-- The inputs of one successful `scanOpportunities` call: fetched block
number and gas price, `Math.random()` draw, `Date.now()` reading. -/
structure ScanInput where
  blockNumber : Nat
  gasPrice : ℚ
  rand : ℚ
  now : Nat
deriving Repr, DecidableEq

/-- The opportunity a successful scan with inputs `q` appends. -/
def scannedOppOf (q : ScanInput) : Opp :=
  scannedOpp q.blockNumber q.gasPrice q.rand q.now

/-- Thread a sequence of successful `scanOpportunities` calls through the
opportunity buffer. -/
def runScans (buf : List Opp) (ss : List ScanInput) : List Opp :=
  ss.foldl
    (fun b q =>
      (scanOpportunities true (some (q.blockNumber, q.gasPrice)) q.rand q.now b).2)
    buf

/-- A concrete 50-element opportunity buffer used to exercise eviction. -/
def fullBuf : List Opp := (List.range 50).map (fun k => scannedOpp k 0 0 k)

/-- A concrete call input that fails the balance check (fetched balance 0). -/
def cFail : ExecInput :=
  { walletReady := true, balance := some 0, randProfit := 0, randGas := 0,
    latency := 0, now := 0 }

/-- A concrete call input that succeeds with an observed latency of 10 ms. -/
def cSucc10 : ExecInput :=
  { walletReady := true, balance := some 1, randProfit := 0, randGas := 0,
    latency := 10, now := 1 }

/-- A concrete scan input (first scan, at clock reading 100). -/
def sA : ScanInput := { blockNumber := 1, gasPrice := 2, rand := 0, now := 100 }

/-- A concrete scan input (second scan, at clock reading 200). -/
def sB : ScanInput := { blockNumber := 2, gasPrice := 3, rand := 0, now := 200 }

/-- A concrete loop wake-up input (all collaborator outcomes trivial). -/
def wInp : LoopInput :=
  { providerPresent := false, callResult := none, scanRand := 0, now := 0,
    stratPick := 0, walletReady := false, balance := none,
    randProfit := 0, randGas := 0, latency := 0 }

/-! ## Theorems -/

/-- Unfolding equation for `executeStrategy` on the ready path with a
fetched balance: the remaining branch is the balance check. -/
theorem executeStrategy_ready (st : Stats) (strat : Strategy) (b : ℚ)
    (rp rg lat : ℚ) (now : Nat) :
    executeStrategy st strat true (some b) rp rg lat now
      = (if b < 1/1000 then
           ({ st with trades := st.trades + 1, failedTrades := st.failedTrades + 1 },
            strat, ExecOutcome.threw ExecError.insufficientBalance)
         else
           ({ st with trades := st.trades + 1,
                      successfulTrades := st.successfulTrades + 1,
                      totalProfitETH := st.totalProfitETH + (rp * (5/1000) + 1/1000),
                      totalGasCostETH := st.totalGasCostETH + (rg * (5/10000) + 2/10000),
                      lastTradeTime := now,
                      avgLatencyMs :=
                        (st.avgLatencyMs * (((st.trades + 1 : ℕ) : ℚ) - 1) + lat)
                          / ((st.trades + 1 : ℕ) : ℚ) },
            { strat with totalTrades := strat.totalTrades + 1,
                         totalProfitUSD := strat.totalProfitUSD + (rp * (5/1000) + 1/1000) * 3450 },
            ExecOutcome.ok (rp * (5/1000) + 1/1000) (rg * (5/10000) + 2/10000)
              ((rp * (5/1000) + 1/1000) - (rg * (5/10000) + 2/10000)) lat)) := rfl

/-- Unfolding equation for `executeStrategy` on the ready path when the
balance fetch rejects: the failure counter is incremented. -/
theorem executeStrategy_provider_err (st : Stats) (strat : Strategy)
    (rp rg lat : ℚ) (now : Nat) :
    executeStrategy st strat true none rp rg lat now
      = ({ st with trades := st.trades + 1, failedTrades := st.failedTrades + 1 },
         strat, ExecOutcome.threw ExecError.providerError) := rfl

/-- C10: when the wallet or provider is uninitialized, `executeStrategy`
throws `Wallet not initialized` before touching any statistics: the
statistics record and the strategy record are returned exactly unchanged
(`src/index.ts:126-128` throws before the `stats.trades++` at line 131). -/
theorem C10_execute_not_ready_atomic :
    ∀ (st : Stats) (strat : Strategy) (balance : Option ℚ)
      (randProfit randGas latency : ℚ) (now : Nat),
      executeStrategy st strat false balance randProfit randGas latency now
        = (st, strat, ExecOutcome.notReady) := by
  intro st strat balance randProfit randGas latency now
  rfl

/-- C7: `scanOpportunities` never throws; when the provider is absent, or
when the provider block-number/fee-data call fails, it returns no
opportunity and leaves the buffer unchanged. -/
theorem C7_scan_fails_softly :
    (∀ (callResult : Option (Nat × ℚ)) (rand : ℚ) (now : Nat) (buf : List Opp),
      scanOpportunities false callResult rand now buf = (none, buf)) ∧
    (∀ (providerPresent : Bool) (rand : ℚ) (now : Nat) (buf : List Opp),
      scanOpportunities providerPresent none rand now buf = (none, buf)) := by
  constructor
  · intro callResult rand now buf
    rfl
  · intro providerPresent rand now buf
    cases providerPresent <;> rfl

/-- C2: `withdrawAll` with an initialized wallet and provider computes the
withdrawable amount as balance − 0.01; when that is ≤ 0 it fails with the
insufficient-balance error and submits nothing, otherwise it submits a
transfer of exactly balance − 0.01 to the configured profit destination
and reports that amount. -/
theorem C2_withdrawAll_reserve (b : ℚ) (d : String) :
    (b - 1/100 ≤ 0 → withdrawAll true b d = WithdrawOutcome.insufficient) ∧
    (0 < b - 1/100 → withdrawAll true b d = WithdrawOutcome.submitted d (b - 1/100)) := by
  constructor
  · intro h
    simp only [withdrawAll, Bool.not_true, Bool.false_eq_true, if_false, if_pos h]
  · intro h
    simp only [withdrawAll, Bool.not_true, Bool.false_eq_true, if_false,
      if_neg (not_le.mpr h)]

/-- Witness for C2 at the example balances of the claim: balance 0.005 fails
with insufficient-balance, balance 1.0 submits 0.99. -/
theorem C2_withdrawAll_reserve_witness :
    withdrawAll true (1/200) "PROFIT" = WithdrawOutcome.insufficient ∧
    withdrawAll true 1 "PROFIT" = WithdrawOutcome.submitted "PROFIT" (99/100) := by
  constructor
  · exact (C2_withdrawAll_reserve (1/200) "PROFIT").1 (by norm_num)
  · have h := (C2_withdrawAll_reserve 1 "PROFIT").2 (by norm_num)
    rw [h]
    norm_num

/-- C3 counterexample: a call made while the wallet is uninitialized does
NOT increment the `trades` counter (the throw at src/index.ts:127 happens
before `stats.trades++`), refuting the claim part "including calls that fail
the wallet/provider readiness check". -/
theorem C3_counterexample :
    ¬ ((executeStrategy initStats (mkStrategy 0 0 0 0) false none 0 0 0 0).1.trades
        = initStats.trades + 1) := by
  decide

/-- C3 (amended): no call to `executeStrategy` ever decreases the failure
counter; every call that passes the wallet/provider readiness check
increments `trades` by exactly 1 and exactly one of
{`successfulTrades`, `failedTrades`} by exactly 1; a call that fails the
readiness check leaves the statistics unchanged. -/
theorem C3_execute_counter_discipline
    (st : Stats) (strat : Strategy) (walletReady : Bool) (balance : Option ℚ)
    (randProfit randGas latency : ℚ) (now : Nat) :
    st.failedTrades
      ≤ (executeStrategy st strat walletReady balance randProfit randGas latency now).1.failedTrades ∧
    (walletReady = true →
      (executeStrategy st strat walletReady balance randProfit randGas latency now).1.trades
        = st.trades + 1 ∧
      ((executeStrategy st strat walletReady balance randProfit randGas latency now).1.successfulTrades
          = st.successfulTrades + 1 ∧
        (executeStrategy st strat walletReady balance randProfit randGas latency now).1.failedTrades
          = st.failedTrades ∨
        (executeStrategy st strat walletReady balance randProfit randGas latency now).1.failedTrades
          = st.failedTrades + 1 ∧
        (executeStrategy st strat walletReady balance randProfit randGas latency now).1.successfulTrades
          = st.successfulTrades)) ∧
    (walletReady = false →
      (executeStrategy st strat walletReady balance randProfit randGas latency now).1 = st) := by
  refine ⟨?_, ?_, ?_⟩
  · cases walletReady
    · exact le_refl _
    · cases balance with
      | none =>
          rw [executeStrategy_provider_err]
          exact Nat.le_succ _
      | some b =>
          rw [executeStrategy_ready]
          by_cases hb : b < 1/1000
          · rw [if_pos hb]
            exact Nat.le_succ _
          · rw [if_neg hb]
  · intro hw
    subst hw
    cases balance with
    | none =>
        rw [executeStrategy_provider_err]
        exact ⟨rfl, Or.inr ⟨rfl, rfl⟩⟩
    | some b =>
        rw [executeStrategy_ready]
        by_cases hb : b < 1/1000
        · rw [if_pos hb]
          exact ⟨rfl, Or.inr ⟨rfl, rfl⟩⟩
        · rw [if_neg hb]
          exact ⟨rfl, Or.inl ⟨rfl, rfl⟩⟩
  · intro hw
    subst hw
    rfl

/-- Witness for C3 (amended): a concrete successful call from the initial
statistics increments `trades` to 1, `successfulTrades` to 1, and leaves
`failedTrades` at 0. -/
theorem C3_execute_counter_discipline_witness :
    (executeStrategy initStats (mkStrategy 0 0 0 0) true (some 1) 0 0 0 0).1.trades
      = initStats.trades + 1 ∧
    (executeStrategy initStats (mkStrategy 0 0 0 0) true (some 1) 0 0 0 0).1.successfulTrades
      = initStats.successfulTrades + 1 ∨
    (executeStrategy initStats (mkStrategy 0 0 0 0) true (some 1) 0 0 0 0).1.failedTrades
      = initStats.failedTrades + 1 := by
  have h := C3_execute_counter_discipline initStats (mkStrategy 0 0 0 0) true (some 1) 0 0 0 0
  rcases (h.2.1 rfl).2 with hs | hf
  · exact Or.inl ⟨(h.2.1 rfl).1, hs.1⟩
  · exact Or.inr hf.1

/-- C1 counterexample: from the initial stopped state, the command
sequence `start; startHighFrequency` is fully accepted (the `start-uhf`
guard checks only `uhfRunning`, src/index.ts:386) and launches a second
`tradingLoop`, so two loop instances are active — refuting "at most one
scan-execute loop instance is ever active". -/
theorem C1_counterexample :
    ¬ ((runEvents initSys [Event.start, Event.startUhf]).activeLoops ≤ 1) := by
  decide

/-- C1 (amended): a `start` issued while `engineRunning` is set, and a
`startHighFrequency` issued while `uhfRunning` is set, are rejected with
the "already running" error and leave the engine state unchanged; each
accepted command sets its flags and launches exactly one further loop
instance — so `start` followed by `startHighFrequency` yields two
simultaneously active loop instances rather than at most one. -/
theorem C1_start_rejection_semantics :
    (∀ s : Sys, s.engineRunning = true → applyStart s = (s, false)) ∧
    (∀ s : Sys, s.uhfRunning = true → applyStartUhf s = (s, false)) ∧
    (∀ s : Sys, s.engineRunning = false →
      applyStart s
        = ({ s with engineRunning := true, activeLoops := s.activeLoops + 1 }, true)) ∧
    (∀ s : Sys, s.uhfRunning = false →
      applyStartUhf s
        = ({ s with uhfRunning := true, engineRunning := true,
                    activeLoops := s.activeLoops + 1 }, true)) ∧
    (runEvents initSys [Event.start, Event.startUhf]).activeLoops = 2 ∧
    (runEvents initSys [Event.start, Event.startUhf]).engineRunning = true ∧
    (runEvents initSys [Event.start, Event.startUhf]).uhfRunning = true := by
  refine ⟨?_, ?_, ?_, ?_, rfl, rfl, rfl⟩
  · intro s h
    simp only [applyStart, if_pos h]
  · intro s h
    simp only [applyStartUhf, if_pos h]
  · intro s h
    simp only [applyStart, h, Bool.false_eq_true, if_false]
  · intro s h
    simp only [applyStartUhf, h, Bool.false_eq_true, if_false]

/-- Witness for C1 (amended): with the engine already started, a second
`start` is rejected and changes nothing; from the initial state a
`startHighFrequency` is accepted and launches one loop. -/
theorem C1_start_rejection_semantics_witness :
    applyStart (runEvents initSys [Event.start])
      = (runEvents initSys [Event.start], false) ∧
    applyStartUhf initSys
      = ({ initSys with uhfRunning := true, engineRunning := true,
                        activeLoops := initSys.activeLoops + 1 }, true) := by
  constructor
  · exact C1_start_rejection_semantics.1 (runEvents initSys [Event.start]) rfl
  · exact C1_start_rejection_semantics.2.2.2.1 initSys rfl

/-- In a stopped state (both flags clear), any event sequence free of
start commands leaves the statistics untouched and the flags clear:
`stop` keeps the state stopped and a loop wake-up only lets the loop
observe the stop condition and exit. -/
theorem runEvents_stopped (s : Sys) (es : List Event)
    (heng : s.engineRunning = false) (huhf : s.uhfRunning = false)
    (hes : ∀ e ∈ es, e ≠ Event.start ∧ e ≠ Event.startUhf) :
    (runEvents s es).stats = s.stats ∧ (runEvents s es).engineRunning = false ∧
      (runEvents s es).uhfRunning = false := by
  induction es generalizing s with
  | nil => exact ⟨rfl, heng, huhf⟩
  | cons e es ih =>
      have he := hes e (List.mem_cons_self _ _)
      have hrest : ∀ x ∈ es, x ≠ Event.start ∧ x ≠ Event.startUhf :=
        fun x hx => hes x (List.mem_cons_of_mem _ hx)
      cases e with
      | start => exact absurd rfl he.1
      | startUhf => exact absurd rfl he.2
      | stop => exact ih ((applyStop s).1) rfl rfl hrest
      | wake inp =>
          have hgoal : runEvents s (Event.wake inp :: es)
              = runEvents (stepEvent s (Event.wake inp)) es := rfl
          have hstep : stepEvent s (Event.wake inp)
              = { s with activeLoops := s.activeLoops - 1 } := by
            simp [stepEvent, loopWake, heng, huhf]
          rw [hgoal, hstep]
          exact ih _ heng huhf hrest

/-- C6: `stop()` always succeeds and is idempotent: it clears both
running flags; once both flags are clear the loop, re-checking the flags
at its next wake-up, exits without touching anything but the live-loop
count, and no statistics mutation occurs over any subsequent events
until a new start command. -/
theorem C6_stop_idempotent_quiescent (s : Sys) (es : List Event) (inp : LoopInput)
    (hes : ∀ e ∈ es, e ≠ Event.start ∧ e ≠ Event.startUhf) :
    (applyStop s).2 = true ∧
    (applyStop (applyStop s).1).1 = (applyStop s).1 ∧
    (applyStop s).1.engineRunning = false ∧
    (applyStop s).1.uhfRunning = false ∧
    (applyStop s).1.stats = s.stats ∧
    loopWake (applyStop s).1 inp
      = { (applyStop s).1 with activeLoops := s.activeLoops - 1 } ∧
    (runEvents (applyStop s).1 es).stats = s.stats ∧
    (runEvents (applyStop s).1 es).engineRunning = false ∧
    (runEvents (applyStop s).1 es).uhfRunning = false := by
  have h := runEvents_stopped ((applyStop s).1) es rfl rfl hes
  exact ⟨rfl, rfl, rfl, rfl, rfl, rfl, h.1, h.2.1, h.2.2⟩

/-- Witness for C6: after starting the engine and stopping it, a
subsequent stop and a loop wake-up leave the statistics at their value
from before the stop. -/
theorem C6_stop_idempotent_quiescent_witness :
    (applyStop (runEvents initSys [Event.start])).2 = true ∧
    (runEvents (applyStop (runEvents initSys [Event.start])).1
        [Event.stop, Event.wake wInp]).stats
      = (runEvents initSys [Event.start]).stats := by
  have h := C6_stop_idempotent_quiescent (runEvents initSys [Event.start])
    [Event.stop, Event.wake wInp] wInp (by decide)
  exact ⟨h.1, h.2.2.2.2.2.2.1⟩

/-- Unfolding equation for a successful `scanOpportunities` call: the new
opportunity is appended and the front is dropped when the buffer would
exceed 50 entries. -/
theorem scanOpportunities_success_buf (buf : List Opp) (bn : Nat) (gp rand : ℚ)
    (now : Nat) :
    (scanOpportunities true (some (bn, gp)) rand now buf).2
      = (if (buf ++ [scannedOpp bn gp rand now]).length > 50
         then (buf ++ [scannedOpp bn gp rand now]).tail
         else buf ++ [scannedOpp bn gp rand now]) := rfl

/-- C5: after any call to `scanOpportunities` on a buffer of at most 50
entries the buffer still has at most 50 entries, and when the append
exceeds 50 the evicted entry is exactly the front (oldest) one: the new
buffer is the tail of the old buffer with the new opportunity appended. -/
theorem C5_buffer_bounded_fifo (providerPresent : Bool)
    (callResult : Option (Nat × ℚ)) (rand : ℚ) (now : Nat) (buf : List Opp)
    (hbuf : buf.length ≤ 50) :
    (scanOpportunities providerPresent callResult rand now buf).2.length ≤ 50 ∧
    (buf.length = 50 → ∀ bn gp, providerPresent = true → callResult = some (bn, gp) →
      (scanOpportunities providerPresent callResult rand now buf).2
        = buf.tail ++ [scannedOpp bn gp rand now]) := by
  cases providerPresent with
  | false =>
      refine ⟨hbuf, ?_⟩
      intro _ bn gp hp _
      exact absurd hp (by decide)
  | true =>
      cases callResult with
      | none =>
          refine ⟨hbuf, ?_⟩
          intro _ bn gp _ hc
          exact Option.noConfusion hc
      | some pr =>
          obtain ⟨bn0, gp0⟩ := pr
          constructor
          · rw [scanOpportunities_success_buf]
            by_cases hlen : (buf ++ [scannedOpp bn0 gp0 rand now]).length > 50
            · rw [if_pos hlen]
              simp only [List.length_tail, List.length_append, List.length_singleton]
              omega
            · rw [if_neg hlen]
              simp only [List.length_append, List.length_singleton] at hlen ⊢
              omega
          · intro h50 bn gp _ hc
            simp only [Option.some.injEq, Prod.mk.injEq] at hc
            obtain ⟨rfl, rfl⟩ := hc
            rw [scanOpportunities_success_buf]
            have hlen : (buf ++ [scannedOpp bn0 gp0 rand now]).length > 50 := by
              simp only [List.length_append, List.length_singleton]
              omega
            rw [if_pos hlen]
            obtain ⟨x, xs, rfl⟩ : ∃ x xs, buf = x :: xs := by
              cases buf with
              | nil => simp at h50
              | cons x xs => exact ⟨x, xs, rfl⟩
            rfl

/-- Witness for C5: scanning on a concrete full 50-element buffer keeps
the length at 50 and evicts exactly the front entry. -/
theorem C5_buffer_bounded_fifo_witness :
    (scanOpportunities true (some (7, 3)) 0 123 fullBuf).2.length ≤ 50 ∧
    (scanOpportunities true (some (7, 3)) 0 123 fullBuf).2
      = fullBuf.tail ++ [scannedOpp 7 3 0 123] := by
  have h := C5_buffer_bounded_fifo true (some (7, 3)) 0 123 fullBuf (by decide)
  exact ⟨h.1, h.2 (by decide) 7 3 rfl rfl⟩

/-- One-step unfolding of `runCalls`. -/
theorem runCalls_cons (p : Stats × Strategy) (c : ExecInput) (cs : List ExecInput) :
    runCalls p (c :: cs)
      = runCalls
          ((executeStrategy p.1 p.2 c.walletReady c.balance c.randProfit c.randGas
              c.latency c.now).1,
           (executeStrategy p.1 p.2 c.walletReady c.balance c.randProfit c.randGas
              c.latency c.now).2.1) cs := rfl

/-- Over a sequence of calls that all take the success path, `trades`
counts the calls and `avgLatencyMs * trades` accumulates the latency sum
(the loop invariant behind the running-average formula
`newAvg = (oldAvg*(n-1) + latency)/n`). -/
theorem runCalls_success_stats (cs : List ExecInput) :
    ∀ (st : Stats) (strat : Strategy), (∀ c ∈ cs, succeedsInput c) →
      (runCalls (st, strat) cs).1.trades = st.trades + cs.length ∧
      (runCalls (st, strat) cs).1.avgLatencyMs * ((st.trades + cs.length : ℕ) : ℚ)
        = st.avgLatencyMs * (st.trades : ℚ) + (cs.map ExecInput.latency).sum := by
  induction cs with
  | nil =>
      intro st strat _
      refine ⟨rfl, ?_⟩
      simp [runCalls]
  | cons c cs ih =>
      intro st strat hall
      obtain ⟨hw, b, hb, hble⟩ := hall c (List.mem_cons_self _ _)
      have hrest : ∀ x ∈ cs, succeedsInput x :=
        fun x hx => hall x (List.mem_cons_of_mem _ hx)
      rw [runCalls_cons]
      rw [hw, hb, executeStrategy_ready, if_neg (not_lt.mpr hble)]
      obtain ⟨H1, H2⟩ := ih _ _ hrest
      constructor
      · rw [H1]
        simp only [List.length_cons]
        omega
      · have hc : ((st.trades + (c :: cs).length : ℕ) : ℚ)
            = ((st.trades + 1 + cs.length : ℕ) : ℚ) := by
          simp only [List.length_cons]
          push_cast
          ring
        rw [hc, H2]
        have hcast : ((st.trades + 1 : ℕ) : ℚ) ≠ 0 := by
          push_cast
          positivity
        rw [div_mul_cancel₀ _ hcast]
        simp only [List.map_cons, List.sum_cons]
        push_cast
        ring

/-- C4 counterexample: with one failed call (balance 0) followed by one
successful call of latency 10, the running average is 5 while the
arithmetic mean of the recorded latencies (only the success records one)
is 10 — the divisor `stats.trades` counts failures, so under interleaved
failures the average does not equal the mean of the recorded latencies. -/
theorem C4_counterexample :
    (runCalls (initStats, mkStrategy 0 0 0 0) [cFail, cSucc10]).1.avgLatencyMs = 5 ∧
    ([cSucc10].map ExecInput.latency).sum / (([cSucc10].length : ℕ) : ℚ) = 10 ∧
    (5 : ℚ) ≠ 10 := by
  refine ⟨?_, by norm_num [cSucc10], by norm_num⟩
  norm_num [runCalls, executeStrategy, cFail, cSucc10, initStats, mkStrategy]

/-- C4 (amended): after `n` calls to `executeStrategy` that all take the
success path, `avgLatencyMs` equals the arithmetic mean of the `n`
recorded latencies (exactly, in rational arithmetic) and `trades` equals
`n`; the average is updated only on the success path by
`newAvg = (oldAvg*(n-1) + latency)/n`, with `n` the total trade count,
so the equality holds for all-success sequences but not under
interleaved failures. -/
theorem C4_avg_latency_mean (strat : Strategy) (cs : List ExecInput)
    (h : ∀ c ∈ cs, succeedsInput c) :
    (runCalls (initStats, strat) cs).1.trades = cs.length ∧
    (runCalls (initStats, strat) cs).1.avgLatencyMs
      = (cs.map ExecInput.latency).sum / ((cs.length : ℕ) : ℚ) := by
  obtain ⟨H1, H2⟩ := runCalls_success_stats cs initStats strat h
  refine ⟨by simpa [initStats] using H1, ?_⟩
  rcases Nat.eq_zero_or_pos cs.length with h0 | hpos
  · obtain rfl : cs = [] := List.length_eq_zero.mp h0
    simp [runCalls, initStats]
  · have hne : ((cs.length : ℕ) : ℚ) ≠ 0 := by
      exact_mod_cast Nat.pos_iff_ne_zero.mp hpos
    rw [eq_div_iff hne]
    simpa [initStats] using H2

/-- Witness for C4 (amended): two successful calls with latencies 10 and
20 give two trades and a running average equal to their mean. -/
theorem C4_avg_latency_mean_witness :
    (runCalls (initStats, mkStrategy 0 0 0 0)
        [cSucc10, { cSucc10 with latency := 20 }]).1.trades = 2 ∧
    (runCalls (initStats, mkStrategy 0 0 0 0)
        [cSucc10, { cSucc10 with latency := 20 }]).1.avgLatencyMs
      = ([cSucc10, { cSucc10 with latency := 20 }].map ExecInput.latency).sum
          / (([cSucc10, { cSucc10 with latency := 20 }].length : ℕ) : ℚ) := by
  have h := C4_avg_latency_mean (mkStrategy 0 0 0 0)
    [cSucc10, { cSucc10 with latency := 20 }]
    (by
      intro c hc
      simp only [List.mem_cons, List.not_mem_nil, or_false] at hc
      rcases hc with rfl | rfl
      · exact ⟨rfl, 1, rfl, by norm_num⟩
      · exact ⟨rfl, 1, rfl, by norm_num⟩)
  simpa using h

/-- One-step unfolding of `runScans`. -/
theorem runScans_cons (buf : List Opp) (q : ScanInput) (ss : List ScanInput) :
    runScans buf (q :: ss)
      = runScans (if (buf ++ [scannedOppOf q]).length > 50
                  then (buf ++ [scannedOppOf q]).tail
                  else buf ++ [scannedOppOf q]) ss := rfl

/-- The buffer after a sequence of successful scans holds exactly the
last 50 scanned opportunities in scan order: the earlier ones have been
evicted from the front (FIFO). -/
theorem runScans_eq_drop (ss : List ScanInput) :
    ∀ buf : List Opp, buf.length ≤ 50 →
      runScans buf ss
        = (buf ++ ss.map scannedOppOf).drop ((buf.length + ss.length) - 50) := by
  induction ss with
  | nil =>
      intro buf h
      simp only [runScans, List.foldl_nil, List.map_nil, List.append_nil,
        List.length_nil, Nat.add_zero]
      rw [Nat.sub_eq_zero_of_le h, List.drop_zero]
  | cons q ss ih =>
      intro buf h
      rw [runScans_cons]
      by_cases hlen : (buf ++ [scannedOppOf q]).length > 50
      · have h50 : buf.length = 50 := by
          simp only [List.length_append, List.length_singleton] at hlen
          omega
        rw [if_pos hlen]
        have htl : ((buf ++ [scannedOppOf q]).tail).length ≤ 50 := by
          simp only [List.length_tail, List.length_append, List.length_singleton]
          omega
        rw [ih _ htl, ← List.drop_one,
          ← List.drop_append_of_le_length
            (by simp only [List.length_append, List.length_singleton]; omega),
          List.drop_drop]
        simp only [List.length_drop, List.length_append, List.length_singleton,
          List.map_cons, List.length_cons, List.length_nil]
        rw [List.append_assoc, List.singleton_append]
        congr 1
        omega
      · rw [if_neg hlen]
        rw [ih _ (Nat.le_of_not_lt hlen)]
        simp only [List.length_append, List.length_singleton, List.map_cons,
          List.length_cons, List.length_nil]
        rw [List.append_assoc, List.singleton_append]
        congr 1
        omega

/-- C8 counterexample: after two successful scans, the `/api/flashloans`
`best` field is the FIRST (oldest) buffered opportunity, not the most
recent one — `opportunities[0]` indexes the front of the FIFO buffer. -/
theorem C8_counterexample :
    flashloansBest (runScans [] [sA, sB]) ≠ some (scannedOppOf sB) ∧
    flashloansBest (runScans [] [sA, sB]) = some (scannedOppOf sA) := by
  constructor
  · intro hcontra
    have h2 := congrArg Opp.id (Option.some.inj hcontra)
    simp [scannedOppOf, scannedOpp, sA, sB] at h2
  · rfl

/-- C8 (amended): after any sequence of successful scans the buffer holds
the last 50 scanned opportunities in order; the `/api/flashloans` `best`
field is the OLDEST surviving opportunity (the front of the buffer, null
when empty) rather than the most recent, and the reported average profit
is the arithmetic mean of the buffered profit estimates. -/
theorem C8_flashloans_oldest_and_mean (ss : List ScanInput) :
    runScans [] ss = (ss.map scannedOppOf).drop (ss.length - 50) ∧
    (ss ≠ [] →
      flashloansBest (runScans [] ss)
        = ((ss.map scannedOppOf).drop (ss.length - 50)).head? ∧
      flashloansAvgProfitETH (runScans [] ss)
        = (((ss.map scannedOppOf).drop (ss.length - 50)).map Opp.profitETH).sum
            / ((min ss.length 50 : ℕ) : ℚ)) := by
  have hmain := runScans_eq_drop ss [] (by simp)
  simp only [List.nil_append, List.length_nil, Nat.zero_add] at hmain
  refine ⟨hmain, fun hne => ⟨by rw [hmain]; rfl, ?_⟩⟩
  rw [hmain]
  have hlen : ((ss.map scannedOppOf).drop (ss.length - 50)).length
      = min ss.length 50 := by
    simp only [List.length_drop, List.length_map]
    omega
  have hpos : 0 < min ss.length 50 := by
    have := List.length_pos.mpr hne
    omega
  simp only [flashloansAvgProfitETH, hlen, if_pos hpos]

/-- Witness for C8 (amended): two successful scans put both scanned
opportunities in the buffer (no eviction yet) and `best` is the head. -/
theorem C8_flashloans_oldest_and_mean_witness :
    runScans [] [sA, sB] = ([sA, sB].map scannedOppOf).drop ([sA, sB].length - 50) ∧
    flashloansBest (runScans [] [sA, sB])
      = (([sA, sB].map scannedOppOf).drop ([sA, sB].length - 50)).head? := by
  have h := C8_flashloans_oldest_and_mean [sA, sB]
  exact ⟨h.1, (h.2 (List.cons_ne_nil _ _)).1⟩

/-- The record at index `i < 450` of the generated catalog is the `i`-th
loop iteration record. -/
theorem generateStrategies_getD (rPri rSucc rApy : Nat → ℚ) (i : Nat)
    (hi : i < 450) :
    (generateStrategies rPri rSucc rApy).getD i default
      = mkStrategy i (rPri i) (rSucc i) (rApy i) := by
  simp [generateStrategies, List.getD_eq_getElem?_getD, List.getElem?_map,
    List.getElem?_range hi]

/-- C9: `generateStrategies` builds exactly 450 records whose categories
cycle through the fixed nine-element enumeration in index order, whose
risk tier is assigned by index modulo 3, whose priority lies in [0,100)
and success rate in [0.75, 0.95) whenever the random draws lie in [0,1),
and every record starts enabled with zero cumulative trades and profit. -/
theorem C9_generateStrategies_catalog (rPri rSucc rApy : Nat → ℚ)
    (hPri : ∀ i, 0 ≤ rPri i ∧ rPri i < 1)
    (hSucc : ∀ i, 0 ≤ rSucc i ∧ rSucc i < 1) :
    (generateStrategies rPri rSucc rApy).length = 450 ∧
    (∀ i, i < 450 →
      ((generateStrategies rPri rSucc rApy).getD i default).type
          = strategyTypes.getD (i % strategyTypes.length) "" ∧
      ((generateStrategies rPri rSucc rApy).getD i default).riskLevel
          = (if i % 3 = 0 then "high" else if i % 3 = 1 then "medium" else "low") ∧
      0 ≤ ((generateStrategies rPri rSucc rApy).getD i default).priority ∧
      ((generateStrategies rPri rSucc rApy).getD i default).priority < 100 ∧
      3/4 ≤ ((generateStrategies rPri rSucc rApy).getD i default).successRate ∧
      ((generateStrategies rPri rSucc rApy).getD i default).successRate < 19/20 ∧
      ((generateStrategies rPri rSucc rApy).getD i default).enabled = true ∧
      ((generateStrategies rPri rSucc rApy).getD i default).totalTrades = 0 ∧
      ((generateStrategies rPri rSucc rApy).getD i default).totalProfitUSD = 0) := by
  constructor
  · simp [generateStrategies]
  · intro i hi
    rw [generateStrategies_getD rPri rSucc rApy i hi]
    obtain ⟨hp0, hp1⟩ := hPri i
    obtain ⟨hs0, hs1⟩ := hSucc i
    refine ⟨rfl, rfl, ?_, ?_, ?_, ?_, rfl, rfl, rfl⟩
    · show (0 : ℤ) ≤ Int.floor (rPri i * 100)
      exact Int.floor_nonneg.mpr (mul_nonneg hp0 (by norm_num))
    · show Int.floor (rPri i * 100) < 100
      refine Int.floor_lt.mpr ?_
      have h1 : rPri i * 100 < 1 * 100 := mul_lt_mul_of_pos_right hp1 (by norm_num)
      push_cast
      linarith
    · show (3/4 : ℚ) ≤ 3/4 + rSucc i * (1/5)
      have h1 : 0 ≤ rSucc i * (1/5) := mul_nonneg hs0 (by norm_num)
      linarith
    · show (3/4 : ℚ) + rSucc i * (1/5) < 19/20
      have h1 : rSucc i * (1/5) < 1 * (1/5) := mul_lt_mul_of_pos_right hs1 (by norm_num)
      linarith

/-- Witness for C9: with all random draws 0 the catalog has 450 records
and record 10 (index 10) has category `frontrun` (10 mod 9 = 1). -/
theorem C9_generateStrategies_catalog_witness :
    (generateStrategies (fun _ => 0) (fun _ => 0) (fun _ => 0)).length = 450 ∧
    ((generateStrategies (fun _ => 0) (fun _ => 0) (fun _ => 0)).getD 10 default).type
      = strategyTypes.getD (10 % strategyTypes.length) "" ∧
    ((generateStrategies (fun _ => 0) (fun _ => 0) (fun _ => 0)).getD 10 default).enabled
      = true := by
  have h := C9_generateStrategies_catalog (fun _ => 0) (fun _ => 0) (fun _ => 0)
    (fun i => ⟨le_refl 0, by norm_num⟩) (fun i => ⟨le_refl 0, by norm_num⟩)
  have h10 := h.2 10 (by norm_num)
  exact ⟨h.1, h10.1, h10.2.2.2.2.2.2.1⟩

end MevBackend

